import Mathlib

/-!
Shallow embedding of `src/pi-flirc-roon-volume/flirc_roon_volume.py`.

Time is measured in milliseconds as `Nat` (the script uses `time.time()`
seconds as floats; `HOLD_DELAY_S = 0.08 s` is 80 ms, `RELEASE_GRACE_MS = 180`).
The up-key and down-key handling in `main` (lines 216-237 and 239-253) is
symmetric line for line, as are `do_release_up` / `do_release_down` and
`up_is_active` / `down_is_active`, so the per-key logic is factored into one
set of definitions over `KeyState`, instantiated twice by the dispatcher.

Concurrency model: the event-loop thread, each key's `threading.Timer`
callback, and each `HoldWorker._run` thread are interleaved as atomic
occurrences (`Occ`) carrying the real-clock instant at which they run.  A
pending `threading.Timer` is modelled as its deadline (`releaseTimer`), and
the `_run` thread's position is modelled by `WPhase`.  `HoldWorker.stop`
(setting the stop event) is modelled together with the blocked `_run`
thread's reaction to it, as one atomic transition.
-/

namespace FRV

inductive Dir
| up
| down
deriving DecidableEq

/-- ev.value in the script: 0 = key up, 1 = key down, 2 = repeat. -/
inductive Phase
| released
| pressed
| repeated
deriving DecidableEq

/-- Calls made to the Action Sink: `post_volume` for a tap,
`post_hold("start", ...)` and `post_hold("stop", ...)`. -/
inductive Output
| tap (d : Dir) (step : Nat)
| holdStart (d : Dir) (step tickMs : Nat)
| holdStop (d : Dir)
deriving DecidableEq

/-- Configuration values of the script (module-level constants), with their
default values; times in ms. -/
structure Cfg where
  tapStep : Nat := 1
  holdStep : Nat := 1
  holdDelay : Nat := 80
  tickMs : Nat := 40
  graceMs : Nat := 180
  keyUp : Nat := 68
  keyDown : Nat := 67
deriving DecidableEq

def defCfg : Cfg := {}

/-- Position of a HoldWorker's `_run` thread. -/
inductive WPhase
| noThread
| sleeping (startedAt : Nat)
| waitingStop
deriving DecidableEq

def WPhase.isSleeping : WPhase → Bool
| .sleeping _ => true
| _ => false

/-- The fields of class `HoldWorker` (lines 94-101), plus the `_run` thread
position. `stopEventSet` is `self.stop_event`, `running` is `self.running`,
`holdStarted` is `self.hold_started`. -/
structure WorkerState where
  running : Bool
  stopEventSet : Bool
  holdStarted : Bool
  phase : WPhase
deriving DecidableEq

def WorkerState.init : WorkerState :=
  { running := false, stopEventSet := false, holdStarted := false, phase := .noThread }

/-- `HoldWorker.start` (lines 103-110): no-op when already running; otherwise
clear the stop event, mark running, reset `hold_started`, spawn `_run`. -/
def workerStart (now : Nat) (w : WorkerState) : WorkerState :=
  if w.running then w
  else { running := true, stopEventSet := false, holdStarted := false, phase := .sleeping now }

/-- `HoldWorker.stop` (lines 112-114) together with the blocked `_run`
thread's reaction to the now-set stop event (lines 119-120 when it is inside
`stop_event.wait(HOLD_DELAY_S)`, lines 126-128 when it is inside the final
`stop_event.wait()`), taken as one atomic transition. -/
def workerStop (d : Dir) (w : WorkerState) : WorkerState × List Output :=
  let w2 : WorkerState :=
    { running := false, stopEventSet := true, holdStarted := w.holdStarted, phase := .noThread }
  match w.phase with
  | .sleeping _ => (w2, [])
  | .waitingStop => if w.holdStarted then (w2, [.holdStop d]) else (w2, [])
  | .noThread => (w2, [])

/-- `HoldWorker._run` lines 119-124: the initial `stop_event.wait(HOLD_DELAY_S)`
times out at `startedAt + holdDelay` (it cannot return earlier unless the stop
event was set, which `workerStop` models atomically); the thread then checks
the stop event, then `is_active` (the owning key's held flag), and only then
posts `HoldStart` and sets `hold_started`. -/
def workerWake (cfg : Cfg) (now : Nat) (isActive : Bool) (d : Dir) (w : WorkerState) :
    WorkerState × List Output :=
  match w.phase with
  | .sleeping t =>
    if now < t + cfg.holdDelay then (w, [])
    else if w.stopEventSet then ({ w with phase := .noThread }, [])
    else if isActive then
      ({ w with holdStarted := true, phase := .waitingStop },
        [.holdStart d cfg.holdStep cfg.tickMs])
    else ({ w with phase := .noThread }, [])
  | _ => (w, [])

/-- Per-key tracking state of `main` (lines 139-146): `up_held`/`down_held`,
`up_down_at`/`down_down_at`, `up_last_active_at`/`down_last_active_at`
(all initialised to 0), the pending release `threading.Timer` (as its
deadline, `none` when absent or cancelled), and the key's `HoldWorker`. -/
structure KeyState where
  held : Bool
  downAt : Nat
  lastActiveAt : Nat
  releaseTimer : Option Nat
  worker : WorkerState
deriving DecidableEq

def KeyState.init : KeyState :=
  { held := false, downAt := 0, lastActiveAt := 0, releaseTimer := none, worker := .init }

/-- One key's branch of the event dispatch in `main` (lines 216-237 for the
up key; lines 239-253 are the same for the down key).  Any `Pressed` or
`Repeated` activity first refreshes `last_active_at` and cancels a pending
release timer; a `Pressed` on a not-held key taps and starts the worker; a
`Released` on a held key schedules the grace-window release timer
(`schedule_release`, lines 186-196: cancel the old timer, fire at
`now + RELEASE_GRACE_MS`); a `Repeated` on a held key restarts the worker if
the hold delay has elapsed and `hold_started` is still false. -/
def keyDev (cfg : Cfg) (now : Nat) (d : Dir) (v : Phase) (k : KeyState) :
    KeyState × List Output :=
  let k := if v = .pressed ∨ v = .repeated
    then { k with lastActiveAt := now, releaseTimer := none } else k
  if v = .pressed ∧ k.held = false then
    ({ k with held := true, downAt := now, worker := workerStart now k.worker },
      [.tap d cfg.tapStep])
  else if v = .released ∧ k.held = true then
    ({ k with releaseTimer := some (now + cfg.graceMs) }, [])
  else if v = .repeated ∧ k.held = true then
    if cfg.holdDelay ≤ now - k.downAt ∧ k.worker.holdStarted = false then
      ({ k with worker := workerStart now k.worker }, [])
    else (k, [])
  else (k, [])

/-- The pending release timer firing: `do_release_up` / `do_release_down`
(lines 167-184), run at `now ≥` the deadline (a `threading.Timer` never fires
early; a cancelled timer never fires at all, which shows as
`releaseTimer = none`).  The one-shot timer is spent once it fires.  The
callback releases only if no activity was seen within the grace window. -/
def keyTimer (cfg : Cfg) (now : Nat) (d : Dir) (k : KeyState) : KeyState × List Output :=
  match k.releaseTimer with
  | some dl =>
    if now < dl then (k, [])
    else
      let k := { k with releaseTimer := none }
      if now - k.lastActiveAt < cfg.graceMs then (k, [])
      else if k.held then
        let p := workerStop d k.worker
        ({ k with held := false, worker := p.1 }, p.2)
      else (k, [])
  | none => (k, [])

/-- The key's worker `_run` thread waking from its initial timed wait;
`is_active` reads the key's held flag (`up_is_active` / `down_is_active`,
lines 148-152). -/
def keyWake (cfg : Cfg) (now : Nat) (d : Dir) (k : KeyState) : KeyState × List Output :=
  let p := workerWake cfg now k.held d k.worker
  ({ k with worker := p.1 }, p.2)

/-- Whole tracker state of `main`: one `KeyState` per mapped key. -/
structure St where
  up : KeyState
  down : KeyState
deriving DecidableEq

def St.init : St := { up := .init, down := .init }

def keyOf (d : Dir) (s : St) : KeyState :=
  match d with
  | .up => s.up
  | .down => s.down

/-- An atomic occurrence: a device event read by the loop (`ev.code`,
`ev.value`, at clock instant `t`), a pending release timer callback running,
or a worker `_run` thread waking from its initial timed wait. -/
inductive Occ
| dev (code : Nat) (v : Phase) (t : Nat)
| timerFire (d : Dir) (t : Nat)
| wake (d : Dir) (t : Nat)
deriving DecidableEq

/-- Process one occurrence.  Device events are routed by code
(lines 216 / 239: `if key == KEY_UP ... elif key == KEY_DOWN`, other codes
ignored); timer and wake occurrences that are not actually pending or not yet
due are no-ops (they cannot happen in the running program). -/
def step (cfg : Cfg) (o : Occ) (s : St) : St × List Output :=
  match o with
  | .dev code v t =>
    if code = cfg.keyUp then
      let p := keyDev cfg t .up v s.up
      ({ s with up := p.1 }, p.2)
    else if code = cfg.keyDown then
      let p := keyDev cfg t .down v s.down
      ({ s with down := p.1 }, p.2)
    else (s, [])
  | .timerFire .up t =>
    let p := keyTimer cfg t .up s.up
    ({ s with up := p.1 }, p.2)
  | .timerFire .down t =>
    let p := keyTimer cfg t .down s.down
    ({ s with down := p.1 }, p.2)
  | .wake .up t =>
    let p := keyWake cfg t .up s.up
    ({ s with up := p.1 }, p.2)
  | .wake .down t =>
    let p := keyWake cfg t .down s.down
    ({ s with down := p.1 }, p.2)

/-- Run a list of occurrences, collecting Action Sink calls in order. -/
def run (cfg : Cfg) : List Occ → St → St × List Output
| [], s => (s, [])
| o :: os, s =>
  let p := step cfg o s
  let q := run cfg os p.1
  (q.1, p.2 ++ q.2)

/-- Deadline at which a worker's `_run` thread finishes its initial
`stop_event.wait(HOLD_DELAY_S)`, when it is in that wait. -/
def workerDeadline (cfg : Cfg) (w : WorkerState) : Option Nat :=
  match w.phase with
  | .sleeping t => some (t + cfg.holdDelay)
  | _ => none

/-- The background occurrences currently scheduled by the state: pending
release timers at their deadlines and worker wakeups at theirs. -/
def pendingOccs (cfg : Cfg) (s : St) : List (Nat × Occ) :=
  (match s.up.releaseTimer with
    | some dl => [(dl, Occ.timerFire .up dl)]
    | none => []) ++
  (match s.down.releaseTimer with
    | some dl => [(dl, Occ.timerFire .down dl)]
    | none => []) ++
  (match workerDeadline cfg s.up.worker with
    | some dl => [(dl, Occ.wake .up dl)]
    | none => []) ++
  (match workerDeadline cfg s.down.worker with
    | some dl => [(dl, Occ.wake .down dl)]
    | none => [])

def earliest : List (Nat × Occ) → Option (Nat × Occ)
| [] => none
| p :: ps =>
  match earliest ps with
  | none => some p
  | some q => if p.1 ≤ q.1 then some p else some q

/-- Punctual execution of the program on a time-ordered list of device events
`(t, code, value)`: timers fire at their exact deadline and worker threads
wake as soon as their timed wait elapses, interleaved with the device events
in clock order (at equal instants the background occurrence runs first).
`fuel` bounds the number of occurrences processed. -/
def sched (cfg : Cfg) : Nat → List (Nat × Nat × Phase) → St → List Output
| 0, _, _ => []
| fuel + 1, devs, s =>
  match earliest (pendingOccs cfg s), devs with
  | none, [] => []
  | some p, [] =>
    let q := step cfg p.2 s
    q.2 ++ sched cfg fuel [] q.1
  | none, e :: rest =>
    let q := step cfg (.dev e.2.1 e.2.2 e.1) s
    q.2 ++ sched cfg fuel rest q.1
  | some p, e :: rest =>
    if p.1 ≤ e.1 then
      let q := step cfg p.2 s
      q.2 ++ sched cfg fuel (e :: rest) q.1
    else
      let q := step cfg (.dev e.2.1 e.2.2 e.1) s
      q.2 ++ sched cfg fuel rest q.1

def isTapOf (d : Dir) : Output → Bool
| .tap d2 _ => d2 = d
| _ => false

def isStartOf (d : Dir) : Output → Bool
| .holdStart d2 _ _ => d2 = d
| _ => false

def isStopOf (d : Dir) : Output → Bool
| .holdStop d2 => d2 = d
| _ => false

def nTaps (d : Dir) (l : List Output) : Nat := (l.filter (isTapOf d)).length

def nStarts (d : Dir) (l : List Output) : Nat := (l.filter (isStartOf d)).length

def nStops (d : Dir) (l : List Output) : Nat := (l.filter (isStopOf d)).length

/-- Outstanding `HoldStop` obligation of a worker: its `_run` thread has sent
`HoldStart` (so `hold_started` is set) and now blocks in the final
`stop_event.wait()`. -/
def wDebt (w : WorkerState) : Nat :=
  if w.phase = .waitingStop ∧ w.holdStarted = true then 1 else 0

/-- Shape of a key's state as maintained by the program: a running worker has
its stop event clear; the worker runs exactly while the key is held; a running
worker that has not sent `HoldStart` is still in its initial timed wait; and a
thread in the initial wait belongs to a running worker. -/
def wInvB (k : KeyState) : Bool :=
  (!k.worker.running || !k.worker.stopEventSet) &&
  (k.worker.running == k.held) &&
  (!k.worker.running || k.worker.holdStarted || k.worker.phase.isSleeping) &&
  (!k.worker.phase.isSleeping || k.worker.running)

def WInv (k : KeyState) : Prop := wInvB k = true

def InvSt (s : St) : Prop := WInv s.up ∧ WInv s.down

/-! Device errors in the event loop (lines 255-265).  `FileNotFoundError`
and an `OSError` whose `errno` is `ENODEV` or `ENOENT` make the loop sleep
0.5 s and retry opening the device; any other `OSError` is re-raised and
terminates the process.  `getattr(e, "errno", None)` is the optional errno. -/

inductive DevExc
| fileNotFound
| osError (errnoVal : Option Int)
deriving DecidableEq

def ENODEV : Int := 19

def ENOENT : Int := 2

inductive DevAction
| retryAfterMs (ms : Nat)
| propagate
deriving DecidableEq

/-- The `except` clauses of the event loop (lines 255-265). -/
def handleDevExc (e : DevExc) : DevAction :=
  match e with
  | .fileNotFound => .retryAfterMs 500
  | .osError er =>
    if er = some ENODEV ∨ er = some ENOENT then .retryAfterMs 500 else .propagate

/-- The `while True` loop surviving a list of consecutive device errors:
counts completed retries, or escapes with the first propagated exception. -/
def runErrors : List DevExc → Except DevExc Nat
| [] => .ok 0
| e :: rest =>
  match handleDevExc e with
  | .retryAfterMs _ =>
    match runErrors rest with
    | .ok n => .ok (n + 1)
    | .error x => .error x
  | .propagate => .error e

/-- An item handled by one pass of the `while True` loop body: either an
occurrence while the device connection is up, or a device exception escaping
`dev.read_loop()` / `InputDevice(...)`. -/
inductive LoopItem
| occ (o : Occ)
| devGone (e : DevExc)
deriving DecidableEq

/-- One pass of the loop body: occurrences are dispatched; a recoverable
device error only sleeps and continues (the tracker closures of `main` are
untouched); any other error is re-raised. -/
def mainStep (cfg : Cfg) (it : LoopItem) (s : St) : Except DevExc (St × List Output) :=
  match it with
  | .occ o => .ok (step cfg o s)
  | .devGone e =>
    match handleDevExc e with
    | .retryAfterMs _ => .ok (s, [])
    | .propagate => .error e

def runLoop (cfg : Cfg) : List LoopItem → St → Except DevExc (St × List Output)
| [], s => .ok (s, [])
| it :: its, s =>
  match mainStep cfg it s with
  | .error e => .error e
  | .ok p =>
    match runLoop cfg its p.1 with
    | .error e => .error e
    | .ok q => .ok (q.1, p.2 ++ q.2)

/-! The Action Sink transport (`post_volume`, lines 53-73, and `post_hold`,
lines 76-91).  One `requests.post` either raises (connection error, timeout,
...) or yields a response with a success flag `r.ok` and a body; `r.json()`
either raises or yields an object whose optional `volume` field may or may
not be numeric.  The supply list feeds one outcome per POST attempt, so the
tail of the returned supply shows how many attempts a call consumed. -/

inductive JsonVal
| num (n : Int)
| notNum
deriving DecidableEq

inductive RespBody
| parseFails
| obj (volume : Option JsonVal)
deriving DecidableEq

inductive HttpOutcome
| raisedExc
| resp (ok : Bool) (body : RespBody)
deriving DecidableEq

/-- The body of `post_volume`'s outer `try` (lines 54-71): raises exactly when
`requests.post` raises; a parse failure is caught by the inner
`except Exception: return None` (lines 69-70); a non-numeric or absent
`volume`, or a non-ok response, falls through to `return None` (line 71). -/
def postVolumeAttempt (o : HttpOutcome) : Except Unit (Option Int) :=
  match o with
  | .raisedExc => .error ()
  | .resp ok body =>
    if ok then
      match body with
      | .parseFails => .ok none
      | .obj (some (.num v)) => .ok (some v)
      | .obj (some .notNum) => .ok none
      | .obj none => .ok none
    else .ok none

/-- `post_volume` (lines 53-73): one POST attempt, outer
`except Exception: return None` catching anything the attempt raises. -/
def post_volume (supply : List HttpOutcome) : Option Int × List HttpOutcome :=
  match supply with
  | [] => (none, [])
  | o :: rest =>
    (match postVolumeAttempt o with
      | .error _ => none
      | .ok r => r, rest)

inductive HoldAct
| start
| stop
deriving DecidableEq

/-- The body of `post_hold`'s `try` (lines 77-89): one POST to either the
start or the stop endpoint; raises exactly when `requests.post` raises; the
response is otherwise ignored. -/
def postHoldAttempt (_a : HoldAct) (o : HttpOutcome) : Except Unit Unit :=
  match o with
  | .raisedExc => .error ()
  | .resp _ _ => .ok ()

/-- `post_hold` (lines 76-91): one POST attempt, `except Exception: pass`. -/
def post_hold (a : HoldAct) (supply : List HttpOutcome) : Unit × List HttpOutcome :=
  match supply with
  | [] => ((), [])
  | o :: rest =>
    (match postHoldAttempt a o with
      | .error _ => ()
      | .ok u => u, rest)

/-- C1 fails on the code: for `Pressed(Up)@0`, `Released(Up)@50` with
`holdDelay = 80` and `releaseGraceWindow = 180`, the release is only
confirmed when the grace timer fires at `t = 230`, so at `t = 80` the worker
still finds the key active and posts `HoldStart`, and the confirmed release
at `t = 230` posts `HoldStop` — not zero of each as claimed. -/
theorem claim_C1_cex :
    sched defCfg 10 [(0, defCfg.keyUp, .pressed), (50, defCfg.keyUp, .released)] St.init =
      [.tap .up defCfg.tapStep, .holdStart .up defCfg.holdStep defCfg.tickMs, .holdStop .up] ∧
    ¬ (nTaps .up (sched defCfg 10 [(0, defCfg.keyUp, .pressed), (50, defCfg.keyUp, .released)]
          St.init) = 1 ∧
       nStarts .up (sched defCfg 10 [(0, defCfg.keyUp, .pressed), (50, defCfg.keyUp, .released)]
          St.init) = 0 ∧
       nStops .up (sched defCfg 10 [(0, defCfg.keyUp, .pressed), (50, defCfg.keyUp, .released)]
          St.init) = 0) := by
  decide

/-- C1 amended: for `Pressed(Up)@0`, `Released(Up)@50`, `holdDelay = 80`,
`releaseGraceWindow = 180` and no further events, the program emits exactly
one `Tap(up, tapStep)`, exactly one `HoldStart` (at `t = 80`, because the key
is still considered active while the release is pending inside the grace
window) and exactly one `HoldStop` (at the confirmed release, `t = 230`). -/
theorem claim_C1 :
    sched defCfg 10 [(0, defCfg.keyUp, .pressed), (50, defCfg.keyUp, .released)] St.init =
      [.tap .up defCfg.tapStep, .holdStart .up defCfg.holdStep defCfg.tickMs, .holdStop .up] ∧
    nTaps .up (sched defCfg 10 [(0, defCfg.keyUp, .pressed), (50, defCfg.keyUp, .released)]
        St.init) = 1 ∧
    nStarts .up (sched defCfg 10 [(0, defCfg.keyUp, .pressed), (50, defCfg.keyUp, .released)]
        St.init) = 1 ∧
    nStops .up (sched defCfg 10 [(0, defCfg.keyUp, .pressed), (50, defCfg.keyUp, .released)]
        St.init) = 1 := by
  decide

/-- C4 fails on the code: `up_down_at` is a bare timestamp (initially `0.0`),
not an optional value, and a confirmed release (`do_release_up`) clears only
`up_held` — it never clears `up_down_at`.  After `Pressed@10`, `Released@20`
and the grace timer firing at `t = 200`, the tracker is Idle
(`held = false`) yet `downAt` still carries the stale press time `10`. -/
theorem claim_C4_cex :
    ((run defCfg [.dev defCfg.keyUp .pressed 10, .dev defCfg.keyUp .released 20,
        .wake .up 90, .timerFire .up 200] St.init).1.up.held = false) ∧
    ((run defCfg [.dev defCfg.keyUp .pressed 10, .dev defCfg.keyUp .released 20,
        .wake .up 90, .timerFire .up 200] St.init).1.up.downAt = 10) ∧
    ((run defCfg [.dev defCfg.keyUp .pressed 10, .dev defCfg.keyUp .released 20,
        .wake .up 90, .timerFire .up 200] St.init).1.up.downAt ≠ 0) := by
  decide

/-- C4 amended: `downAt` (the code's `up_down_at` / `down_down_at`) is set to
the event time exactly when a `Pressed` event transitions the key from
not-held to held; it is left unchanged by a `Pressed` on an already-held key
and by the release timer callback (so it is retained, stale, after a
confirmed release — the held/Idle distinction is carried by the `held` flag
alone, not by clearing `downAt`). -/
theorem claim_C4 (cfg : Cfg) (d : Dir) (now dAt lA : Nat) (rt : Option Nat)
    (w : WorkerState) (k : KeyState) :
    ((keyDev cfg now d .pressed ⟨false, dAt, lA, rt, w⟩).1.downAt = now) ∧
    ((keyDev cfg now d .pressed ⟨false, dAt, lA, rt, w⟩).1.held = true) ∧
    ((keyDev cfg now d .pressed ⟨true, dAt, lA, rt, w⟩).1.downAt = dAt) ∧
    ((keyTimer cfg now d k).1.downAt = k.downAt) := by
  refine ⟨by simp [keyDev], by simp [keyDev], by simp [keyDev], ?_⟩
  rcases k with ⟨kh, kd, kl, krt, kw⟩
  cases krt with
  | none => simp [keyTimer]
  | some dl =>
    simp only [keyTimer]
    split
    · rfl
    · split
      · rfl
      · split <;> rfl

/-- C6: a `Pressed` on an already-held key (pending release included) emits
no `Tap`, leaves the worker untouched, and leaves `downAt` unchanged; a
`Pressed` on a not-held key emits `Tap(d, tapStep)` and starts the worker. -/
theorem claim_C6 (cfg : Cfg) (d : Dir) (n1 n2 : Nat) (kH kI : KeyState)
    (hH : kH.held = true) (hI : kI.held = false) :
    ((keyDev cfg n1 d .pressed kH).2 = []) ∧
    ((keyDev cfg n1 d .pressed kH).1.worker = kH.worker) ∧
    ((keyDev cfg n1 d .pressed kH).1.downAt = kH.downAt) ∧
    ((keyDev cfg n1 d .pressed kH).1.held = true) ∧
    ((keyDev cfg n2 d .pressed kI).2 = [.tap d cfg.tapStep]) ∧
    ((keyDev cfg n2 d .pressed kI).1.worker = workerStart n2 kI.worker) ∧
    ((keyDev cfg n2 d .pressed kI).1.held = true) := by
  refine ⟨?_, ?_, ?_, ?_, ?_, ?_, ?_⟩ <;> simp [keyDev, hH, hI]

/-- C6 at a concrete input: a re-press while a release is pending (worker
already past `HoldStart`) leaves everything alone, a press from Idle taps
and starts the worker. -/
theorem claim_C6_witness :
    ((keyDev defCfg 300 .up .pressed
        ⟨true, 0, 100, some 280, ⟨true, false, true, .waitingStop⟩⟩).2 = []) ∧
    ((keyDev defCfg 300 .up .pressed
        ⟨true, 0, 100, some 280, ⟨true, false, true, .waitingStop⟩⟩).1.worker =
      (⟨true, 0, 100, some 280, ⟨true, false, true, .waitingStop⟩⟩ : KeyState).worker) ∧
    ((keyDev defCfg 300 .up .pressed
        ⟨true, 0, 100, some 280, ⟨true, false, true, .waitingStop⟩⟩).1.downAt =
      (⟨true, 0, 100, some 280, ⟨true, false, true, .waitingStop⟩⟩ : KeyState).downAt) ∧
    ((keyDev defCfg 300 .up .pressed
        ⟨true, 0, 100, some 280, ⟨true, false, true, .waitingStop⟩⟩).1.held = true) ∧
    ((keyDev defCfg 5 .up .pressed KeyState.init).2 = [.tap .up defCfg.tapStep]) ∧
    ((keyDev defCfg 5 .up .pressed KeyState.init).1.worker =
      workerStart 5 KeyState.init.worker) ∧
    ((keyDev defCfg 5 .up .pressed KeyState.init).1.held = true) :=
  claim_C6 defCfg .up 300 5 ⟨true, 0, 100, some 280, ⟨true, false, true, .waitingStop⟩⟩
    KeyState.init rfl rfl

/-- C9: the Action Sink calls are fire-and-forget: each call consumes exactly
one transport outcome whatever that outcome is (never retried), `post_hold`
always returns `()`, and `post_volume` returns `none` on every failure —
raised exception or timeout, non-success response, unparseable body, missing
or non-numeric `volume` field. -/
theorem claim_C9 (a : HoldAct) (o : HttpOutcome) (rest : List HttpOutcome) (b : RespBody) :
    ((post_volume (o :: rest)).2 = rest) ∧
    ((post_hold a (o :: rest)).2 = rest) ∧
    ((post_hold a (o :: rest)).1 = ()) ∧
    ((post_volume (.raisedExc :: rest)).1 = none) ∧
    ((post_volume (.resp false b :: rest)).1 = none) ∧
    ((post_volume (.resp true .parseFails :: rest)).1 = none) ∧
    ((post_volume (.resp true (.obj none) :: rest)).1 = none) ∧
    ((post_volume (.resp true (.obj (some .notNum)) :: rest)).1 = none) := by
  refine ⟨rfl, rfl, rfl, rfl, ?_, rfl, rfl, rfl⟩
  simp [post_volume, postVolumeAttempt]

/-- C10: a `Repeated` event for a mapped key that is not held only refreshes
`last_active_at` and cancels the pending release timer: no Action Sink call,
no transition to held, nothing else changed — stated both for the per-key
transition and for the dispatcher routing the mapped up-key code. -/
theorem claim_C10 (cfg : Cfg) (d : Dir) (now : Nat) (k : KeyState) (s : St)
    (hk : k.held = false) (hs : s.up.held = false) :
    keyDev cfg now d .repeated k = ({ k with lastActiveAt := now, releaseTimer := none }, []) ∧
    step cfg (.dev cfg.keyUp .repeated now) s =
      ({ s with up := { s.up with lastActiveAt := now, releaseTimer := none } }, []) := by
  constructor
  · simp [keyDev, hk]
  · simp [step, keyDev, hs]

/-- C10 at a concrete input: a spurious repeat after a confirmed release. -/
theorem claim_C10_witness :
    keyDev defCfg 500 .up .repeated ⟨false, 10, 10, some 480, .init⟩ =
      ({ (⟨false, 10, 10, some 480, .init⟩ : KeyState) with
          lastActiveAt := 500, releaseTimer := none }, []) ∧
    step defCfg (.dev defCfg.keyUp .repeated 500)
        ⟨⟨false, 10, 10, some 480, .init⟩, KeyState.init⟩ =
      ({ (⟨⟨false, 10, 10, some 480, .init⟩, KeyState.init⟩ : St) with
          up := { (⟨false, 10, 10, some 480, .init⟩ : KeyState) with
            lastActiveAt := 500, releaseTimer := none } }, []) :=
  claim_C10 defCfg .up 500 ⟨false, 10, 10, some 480, .init⟩
    ⟨⟨false, 10, 10, some 480, .init⟩, KeyState.init⟩ rfl rfl

/-- C3: a `Released` while held schedules the grace timer (emitting nothing,
key still held); a `Repeated` or `Pressed` arriving within the grace window
cancels that timer, keeps the key held and emits nothing — in particular no
second `Tap` and no `HoldStop` — and with the timer cancelled the release
callback can never fire for that release. -/
theorem claim_C3 (cfg : Cfg) (d : Dir) (t t2 t3 : Nat) (v : Phase) (k : KeyState)
    (hheld : k.held = true) (hv : v = .pressed ∨ v = .repeated)
    (_hgrace : t2 < t + cfg.graceMs) :
    ((keyDev cfg t d .released k).2 = []) ∧
    ((keyDev cfg t d .released k).1.held = true) ∧
    ((keyDev cfg t d .released k).1.releaseTimer = some (t + cfg.graceMs)) ∧
    ((keyDev cfg t2 d v (keyDev cfg t d .released k).1).2 = []) ∧
    ((keyDev cfg t2 d v (keyDev cfg t d .released k).1).1.held = true) ∧
    ((keyDev cfg t2 d v (keyDev cfg t d .released k).1).1.releaseTimer = none) ∧
    (keyTimer cfg t3 d (keyDev cfg t2 d v (keyDev cfg t d .released k).1).1 =
      ((keyDev cfg t2 d v (keyDev cfg t d .released k).1).1, [])) := by
  rcases k with ⟨kh, kd, kl, krt, kw⟩
  simp only [KeyState.held] at hheld
  subst hheld
  have h1 : keyDev cfg t d .released ⟨true, kd, kl, krt, kw⟩ =
      (⟨true, kd, kl, some (t + cfg.graceMs), kw⟩, []) := by
    simp [keyDev]
  rcases hv with rfl | rfl
  · have h2 : keyDev cfg t2 d .pressed ⟨true, kd, kl, some (t + cfg.graceMs), kw⟩ =
        (⟨true, kd, t2, none, kw⟩, []) := by
      simp [keyDev]
    rw [h1, h2]
    exact ⟨rfl, rfl, rfl, rfl, rfl, rfl, by simp [keyTimer]⟩
  · by_cases hc : cfg.holdDelay ≤ t2 - kd ∧ kw.holdStarted = false
    · have h2 : keyDev cfg t2 d .repeated ⟨true, kd, kl, some (t + cfg.graceMs), kw⟩ =
          (⟨true, kd, t2, none, workerStart t2 kw⟩, []) := by
        simp [keyDev, hc]
      rw [h1, h2]
      exact ⟨rfl, rfl, rfl, rfl, rfl, rfl, by simp [keyTimer]⟩
    · have h2 : keyDev cfg t2 d .repeated ⟨true, kd, kl, some (t + cfg.graceMs), kw⟩ =
          (⟨true, kd, t2, none, kw⟩, []) := by
        simp [keyDev, hc]
      rw [h1, h2]
      exact ⟨rfl, rfl, rfl, rfl, rfl, rfl, by simp [keyTimer]⟩

/-- C3 at a concrete input: held key, spurious release at `t = 100`, repeat
at `t = 150` inside the 180 ms grace window. -/
theorem claim_C3_witness :
    ((keyDev defCfg 100 .up .released
        ⟨true, 0, 40, none, ⟨true, false, false, .sleeping 0⟩⟩).2 = []) ∧
    ((keyDev defCfg 100 .up .released
        ⟨true, 0, 40, none, ⟨true, false, false, .sleeping 0⟩⟩).1.held = true) ∧
    ((keyDev defCfg 100 .up .released
        ⟨true, 0, 40, none, ⟨true, false, false, .sleeping 0⟩⟩).1.releaseTimer =
      some (100 + defCfg.graceMs)) ∧
    ((keyDev defCfg 150 .up .repeated (keyDev defCfg 100 .up .released
        ⟨true, 0, 40, none, ⟨true, false, false, .sleeping 0⟩⟩).1).2 = []) ∧
    ((keyDev defCfg 150 .up .repeated (keyDev defCfg 100 .up .released
        ⟨true, 0, 40, none, ⟨true, false, false, .sleeping 0⟩⟩).1).1.held = true) ∧
    ((keyDev defCfg 150 .up .repeated (keyDev defCfg 100 .up .released
        ⟨true, 0, 40, none, ⟨true, false, false, .sleeping 0⟩⟩).1).1.releaseTimer = none) ∧
    (keyTimer defCfg 280 .up (keyDev defCfg 150 .up .repeated (keyDev defCfg 100 .up .released
        ⟨true, 0, 40, none, ⟨true, false, false, .sleeping 0⟩⟩).1).1 =
      ((keyDev defCfg 150 .up .repeated (keyDev defCfg 100 .up .released
        ⟨true, 0, 40, none, ⟨true, false, false, .sleeping 0⟩⟩).1).1, [])) :=
  claim_C3 defCfg .up 100 150 280 .repeated
    ⟨true, 0, 40, none, ⟨true, false, false, .sleeping 0⟩⟩ rfl (Or.inr rfl) (by decide)

theorem runErrors_ok (errs : List DevExc)
    (h : ∀ e ∈ errs, handleDevExc e ≠ .propagate) :
    runErrors errs = .ok errs.length := by
  induction errs with
  | nil => rfl
  | cons e rest ih =>
    have he := h e (List.mem_cons_self e rest)
    have hrest : ∀ x ∈ rest, handleDevExc x ≠ .propagate :=
      fun x hx => h x (List.mem_cons_of_mem e hx)
    cases hh : handleDevExc e with
    | retryAfterMs ms => simp [runErrors, hh, ih hrest]
    | propagate => exact absurd hh he

/-- C7: the event loop treats `FileNotFoundError` and `OSError` with errno
`ENODEV` (19) or `ENOENT` (2) as recoverable — a fixed 0.5 s backoff then
reopen, with no retry bound (any list of consecutive recoverable errors is
survived) — while any other `OSError`, errno absent included, is re-raised
and terminates the process. -/
theorem claim_C7 (n : Int) (hn1 : n ≠ 19) (hn2 : n ≠ 2) (errs : List DevExc)
    (herrs : ∀ e ∈ errs, handleDevExc e ≠ .propagate) :
    (handleDevExc .fileNotFound = .retryAfterMs 500) ∧
    (handleDevExc (.osError (some ENODEV)) = .retryAfterMs 500) ∧
    (handleDevExc (.osError (some ENOENT)) = .retryAfterMs 500) ∧
    (handleDevExc (.osError (some n)) = .propagate) ∧
    (handleDevExc (.osError none) = .propagate) ∧
    (runErrors errs = .ok errs.length) := by
  refine ⟨rfl, rfl, rfl, ?_, rfl, runErrors_ok errs herrs⟩
  simp [handleDevExc, ENODEV, ENOENT, hn1, hn2]

/-- C7 at a concrete input: errno 5 (EIO) propagates; three consecutive
device-gone conditions are all survived. -/
theorem claim_C7_witness :
    (handleDevExc .fileNotFound = .retryAfterMs 500) ∧
    (handleDevExc (.osError (some ENODEV)) = .retryAfterMs 500) ∧
    (handleDevExc (.osError (some ENOENT)) = .retryAfterMs 500) ∧
    (handleDevExc (.osError (some 5)) = .propagate) ∧
    (handleDevExc (.osError none) = .propagate) ∧
    (runErrors [.fileNotFound, .osError (some 19), .osError (some 2)] =
      .ok [DevExc.fileNotFound, .osError (some 19), .osError (some 2)].length) :=
  claim_C7 5 (by decide) (by decide) [.fileNotFound, .osError (some 19), .osError (some 2)]
    (by decide)

/-- C8: a recoverable device-gone condition leaves the whole per-key tracker
state untouched (held flags, `downAt`, `lastActiveAt`, pending release
timers, workers) and emits no Action Sink call: the loop pass returns the
state unchanged with no output, and inserting the reconnect in front of any
continuation changes nothing about the run. -/
theorem claim_C8 (cfg : Cfg) (e : DevExc) (s : St) (its : List LoopItem)
    (h : handleDevExc e ≠ .propagate) :
    (mainStep cfg (.devGone e) s = .ok (s, [])) ∧
    (runLoop cfg (.devGone e :: its) s = runLoop cfg its s) := by
  cases hh : handleDevExc e with
  | retryAfterMs ms =>
    refine ⟨by simp [mainStep, hh], ?_⟩
    cases hr : runLoop cfg its s <;> simp [runLoop, mainStep, hh, hr]
  | propagate => exact absurd hh h

/-- C8 at a concrete input: device gone (errno 19) mid-hold, then the worker
wake after reconnection; tracker state survives the reconnect. -/
theorem claim_C8_witness :
    (mainStep defCfg (.devGone (.osError (some 19)))
        ⟨⟨true, 0, 0, none, ⟨true, false, false, .sleeping 0⟩⟩, KeyState.init⟩ =
      .ok (⟨⟨true, 0, 0, none, ⟨true, false, false, .sleeping 0⟩⟩, KeyState.init⟩, [])) ∧
    (runLoop defCfg (.devGone (.osError (some 19)) :: [.occ (.wake .up 80)])
        ⟨⟨true, 0, 0, none, ⟨true, false, false, .sleeping 0⟩⟩, KeyState.init⟩ =
      runLoop defCfg [.occ (.wake .up 80)]
        ⟨⟨true, 0, 0, none, ⟨true, false, false, .sleeping 0⟩⟩, KeyState.init⟩) :=
  claim_C8 defCfg (.osError (some 19))
    ⟨⟨true, 0, 0, none, ⟨true, false, false, .sleeping 0⟩⟩, KeyState.init⟩
    [.occ (.wake .up 80)] (by decide)

theorem wDebt_start (now : Nat) (w : WorkerState) : wDebt (workerStart now w) ≤ wDebt w := by
  by_cases h : w.running
  · simp [workerStart, h]
  · simp [workerStart, h, wDebt]

theorem workerStop_balance (d : Dir) (w : WorkerState) :
    nStops d (workerStop d w).2 + wDebt (workerStop d w).1 =
    nStarts d (workerStop d w).2 + wDebt w := by
  rcases w with ⟨r, se, hs, ph⟩
  cases ph <;> cases hs <;>
    simp [workerStop, wDebt, nStops, nStarts, isStopOf, isStartOf]

theorem workerWake_balance (cfg : Cfg) (now : Nat) (act : Bool) (d : Dir) (w : WorkerState) :
    nStops d (workerWake cfg now act d w).2 + wDebt (workerWake cfg now act d w).1 ≤
    nStarts d (workerWake cfg now act d w).2 + wDebt w := by
  rcases w with ⟨r, se, hs, ph⟩
  cases ph <;> simp only [workerWake] <;> (try split_ifs) <;>
    simp [wDebt, nStops, nStarts, isStopOf, isStartOf]

theorem keyDev_noStartStop (cfg : Cfg) (now : Nat) (d2 : Dir) (v : Phase) (k : KeyState)
    (d : Dir) :
    nStops d (keyDev cfg now d2 v k).2 = 0 ∧ nStarts d (keyDev cfg now d2 v k).2 = 0 := by
  cases v <;> simp only [keyDev] <;> split_ifs <;>
    simp [nStops, nStarts, isStopOf, isStartOf]

theorem keyDev_wDebt (cfg : Cfg) (now : Nat) (d2 : Dir) (v : Phase) (k : KeyState) :
    wDebt (keyDev cfg now d2 v k).1.worker ≤ wDebt k.worker := by
  cases v <;> simp only [keyDev] <;> split_ifs <;>
    simp [wDebt_start]

theorem workerStop_other (d d2 : Dir) (w : WorkerState) (h : (d2 == d) = false) :
    nStops d (workerStop d2 w).2 = 0 ∧ nStarts d (workerStop d2 w).2 = 0 := by
  have hne : d2 ≠ d := by simpa using h
  rcases w with ⟨r, se, hs, ph⟩
  cases ph <;> cases hs <;>
    simp [workerStop, nStops, nStarts, isStopOf, isStartOf, hne]

theorem workerWake_other (cfg : Cfg) (now : Nat) (act : Bool) (d d2 : Dir) (w : WorkerState)
    (h : (d2 == d) = false) :
    nStops d (workerWake cfg now act d2 w).2 = 0 ∧
    nStarts d (workerWake cfg now act d2 w).2 = 0 := by
  have hne : d2 ≠ d := by simpa using h
  rcases w with ⟨r, se, hs, ph⟩
  cases ph <;> simp only [workerWake] <;> (try split_ifs) <;>
    simp [nStops, nStarts, isStopOf, isStartOf, hne]

theorem keyTimer_balance (cfg : Cfg) (now : Nat) (d : Dir) (k : KeyState) :
    nStops d (keyTimer cfg now d k).2 + wDebt (keyTimer cfg now d k).1.worker ≤
    nStarts d (keyTimer cfg now d k).2 + wDebt k.worker := by
  rcases k with ⟨kh, kd, kl, krt, kw⟩
  cases krt with
  | none => simp [keyTimer, nStops, nStarts]
  | some dl =>
    simp only [keyTimer]
    split_ifs with hA hB hC
    · simp [nStops, nStarts]
    · simp [nStops, nStarts]
    · simpa using le_of_eq (workerStop_balance d kw)
    · simp [nStops, nStarts]

theorem keyTimer_other (cfg : Cfg) (now : Nat) (d d2 : Dir) (k : KeyState)
    (h : (d2 == d) = false) :
    nStops d (keyTimer cfg now d2 k).2 = 0 ∧ nStarts d (keyTimer cfg now d2 k).2 = 0 := by
  rcases k with ⟨kh, kd, kl, krt, kw⟩
  cases krt with
  | none => simp [keyTimer, nStops, nStarts]
  | some dl =>
    simp only [keyTimer]
    split_ifs with hA hB hC
    · simp [nStops, nStarts]
    · simp [nStops, nStarts]
    · exact workerStop_other d d2 kw h
    · simp [nStops, nStarts]

theorem keyWake_balance (cfg : Cfg) (now : Nat) (d : Dir) (k : KeyState) :
    nStops d (keyWake cfg now d k).2 + wDebt (keyWake cfg now d k).1.worker ≤
    nStarts d (keyWake cfg now d k).2 + wDebt k.worker := by
  simpa [keyWake] using workerWake_balance cfg now k.held d k.worker

theorem keyWake_other (cfg : Cfg) (now : Nat) (d d2 : Dir) (k : KeyState)
    (h : (d2 == d) = false) :
    nStops d (keyWake cfg now d2 k).2 = 0 ∧ nStarts d (keyWake cfg now d2 k).2 = 0 := by
  simpa [keyWake] using workerWake_other cfg now k.held d d2 k.worker h

theorem step_balance (cfg : Cfg) (o : Occ) (s : St) (d : Dir) :
    nStops d (step cfg o s).2 + wDebt ((keyOf d (step cfg o s).1).worker) ≤
    nStarts d (step cfg o s).2 + wDebt ((keyOf d s).worker) := by
  cases o with
  | dev code v t =>
    simp only [step]
    split_ifs with h1 h2
    · cases d
      · have hz := keyDev_noStartStop cfg t .up v s.up .up
        have hw := keyDev_wDebt cfg t .up v s.up
        simpa [keyOf, hz.1, hz.2] using hw
      · have hz := keyDev_noStartStop cfg t .up v s.up .down
        simp [keyOf, hz.1, hz.2]
    · cases d
      · have hz := keyDev_noStartStop cfg t .down v s.down .up
        simp [keyOf, hz.1, hz.2]
      · have hz := keyDev_noStartStop cfg t .down v s.down .down
        have hw := keyDev_wDebt cfg t .down v s.down
        simpa [keyOf, hz.1, hz.2] using hw
    · simp [keyOf, nStops, nStarts]
  | timerFire d2 t =>
    cases d2 <;> cases d
    · simpa [step, keyOf] using keyTimer_balance cfg t .up s.up
    · have hz := keyTimer_other cfg t .down .up s.up (by decide)
      simp [step, keyOf, hz.1, hz.2]
    · have hz := keyTimer_other cfg t .up .down s.down (by decide)
      simp [step, keyOf, hz.1, hz.2]
    · simpa [step, keyOf] using keyTimer_balance cfg t .down s.down
  | wake d2 t =>
    cases d2 <;> cases d
    · simpa [step, keyOf] using keyWake_balance cfg t .up s.up
    · have hz := keyWake_other cfg t .down .up s.up (by decide)
      simp [step, keyOf, hz.1, hz.2]
    · have hz := keyWake_other cfg t .up .down s.down (by decide)
      simp [step, keyOf, hz.1, hz.2]
    · simpa [step, keyOf] using keyWake_balance cfg t .down s.down

theorem run_balance (cfg : Cfg) (os : List Occ) (d : Dir) :
    ∀ s, nStops d (run cfg os s).2 + wDebt ((keyOf d (run cfg os s).1).worker) ≤
      nStarts d (run cfg os s).2 + wDebt ((keyOf d s).worker) := by
  induction os with
  | nil => intro s; simp [run, nStops, nStarts]
  | cons o rest ih =>
    intro s
    have h1 := step_balance cfg o s d
    have h2 := ih (step cfg o s).1
    simp only [run]
    simp only [nStops, nStarts, List.filter_append, List.length_append] at h1 h2 ⊢
    omega

/-- C2: over every interleaving of device events, timer callbacks and worker
wakeups, each key's `HoldStop` count never exceeds its `HoldStart` count
(every stop is covered by an earlier start of the same worker episode, since
`hold_started` is reset at `start()` and set only when `HoldStart` is posted);
a worker stopped while still in its initial timed wait sends nothing, a
worker that wakes and finds the key inactive sends nothing, and stopping a
worker whose `hold_started` flag is clear sends nothing. -/
theorem claim_C2 :
    (∀ (cfg : Cfg) (os : List Occ) (d : Dir),
      nStops d (run cfg os St.init).2 ≤ nStarts d (run cfg os St.init).2) ∧
    (∀ (d : Dir) (r se hs : Bool) (t : Nat),
      (workerStop d ⟨r, se, hs, .sleeping t⟩).2 = []) ∧
    (∀ (cfg : Cfg) (now : Nat) (d : Dir) (r se hs : Bool) (t : Nat),
      (workerWake cfg now false d ⟨r, se, hs, .sleeping t⟩).2 = []) ∧
    (∀ (d : Dir) (r se : Bool) (ph : WPhase), (workerStop d ⟨r, se, false, ph⟩).2 = []) := by
  refine ⟨?_, ?_, ?_, ?_⟩
  · intro cfg os d
    have h := run_balance cfg os d St.init
    have hinit : wDebt ((keyOf d St.init).worker) = 0 := by cases d <;> rfl
    omega
  · intro d r se hs t
    rfl
  · intro cfg now d r se hs t
    simp only [workerWake]
    split_ifs <;> simp_all
  · intro d r se ph
    cases ph <;> rfl

/-- C5: when a `Repeated` event arrives for a held key whose worker has not
yet sent `HoldStart` and the hold delay has already elapsed since `downAt`,
the handler invokes `worker.start()`; the worker is live (`running`, stop
event clear, `_run` still in its initial wait — the shape every reachable
held state has), so the call is a no-op and the pending wakeup goes on to
post `HoldStart` whenever it runs with the key still active.  Starting a
running worker never changes it. -/
theorem claim_C5 (cfg : Cfg) (d : Dir) (now t0 wt n : Nat) (se2 hs2 : Bool) (ph2 : WPhase)
    (k : KeyState) (hinv : WInv k) (hheld : k.held = true)
    (hns : k.worker.holdStarted = false) (helap : cfg.holdDelay ≤ now - k.downAt)
    (hph : k.worker.phase = .sleeping t0) (hw : t0 + cfg.holdDelay ≤ wt) :
    ((keyDev cfg now d .repeated k).1.worker = k.worker) ∧
    ((keyDev cfg now d .repeated k).1.held = true) ∧
    ((keyWake cfg wt d (keyDev cfg now d .repeated k).1).2 =
      [.holdStart d cfg.holdStep cfg.tickMs]) ∧
    ((keyWake cfg wt d (keyDev cfg now d .repeated k).1).1.worker.holdStarted = true) ∧
    (workerStart n ⟨true, se2, hs2, ph2⟩ = ⟨true, se2, hs2, ph2⟩) := by
  rcases k with ⟨kh, kd, kl, krt, ⟨r, se, hs, ph⟩⟩
  simp only [KeyState.held] at hheld
  simp only [KeyState.worker, WorkerState.holdStarted] at hns
  simp only [KeyState.worker, WorkerState.phase] at hph
  simp only [KeyState.downAt] at helap
  subst hheld
  subst hns
  subst hph
  cases r with
  | false => exact absurd hinv (by simp [WInv, wInvB])
  | true =>
    cases se with
    | true => exact absurd hinv (by simp [WInv, wInvB])
    | false =>
      have h1 : keyDev cfg now d .repeated
          ⟨true, kd, kl, krt, ⟨true, false, false, .sleeping t0⟩⟩ =
          (⟨true, kd, now, none, ⟨true, false, false, .sleeping t0⟩⟩, []) := by
        simp [keyDev, helap, workerStart]
      have hnl : ¬ (wt < t0 + cfg.holdDelay) := Nat.not_lt.mpr hw
      have h2 : keyWake cfg wt d ⟨true, kd, now, none, ⟨true, false, false, .sleeping t0⟩⟩ =
          (⟨true, kd, now, none, ⟨true, false, true, .waitingStop⟩⟩,
            [.holdStart d cfg.holdStep cfg.tickMs]) := by
        simp [keyWake, workerWake, hnl]
      rw [h1, h2]
      exact ⟨rfl, rfl, rfl, rfl, rfl⟩

/-- C5 at a concrete input: key held since `t = 0`, worker asleep since
`t = 0`, `hold_started` still false, repeat at `t = 100 > holdDelay`; the
start call is a no-op and the wake at `t = 100` posts `HoldStart`. -/
theorem claim_C5_witness :
    ((keyDev defCfg 100 .up .repeated
        ⟨true, 0, 0, none, ⟨true, false, false, .sleeping 0⟩⟩).1.worker =
      (⟨true, 0, 0, none, ⟨true, false, false, .sleeping 0⟩⟩ : KeyState).worker) ∧
    ((keyDev defCfg 100 .up .repeated
        ⟨true, 0, 0, none, ⟨true, false, false, .sleeping 0⟩⟩).1.held = true) ∧
    ((keyWake defCfg 100 .up (keyDev defCfg 100 .up .repeated
        ⟨true, 0, 0, none, ⟨true, false, false, .sleeping 0⟩⟩).1).2 =
      [.holdStart .up defCfg.holdStep defCfg.tickMs]) ∧
    ((keyWake defCfg 100 .up (keyDev defCfg 100 .up .repeated
        ⟨true, 0, 0, none, ⟨true, false, false, .sleeping 0⟩⟩).1).1.worker.holdStarted =
      true) ∧
    (workerStart 7 ⟨true, true, true, .noThread⟩ =
      (⟨true, true, true, .noThread⟩ : WorkerState)) :=
  claim_C5 defCfg .up 100 0 100 7 true true .noThread
    ⟨true, 0, 0, none, ⟨true, false, false, .sleeping 0⟩⟩
    rfl rfl rfl (by decide) rfl (by decide)

theorem wInv_keyDev (cfg : Cfg) (now : Nat) (d : Dir) (v : Phase) (k : KeyState)
    (h : WInv k) : WInv (keyDev cfg now d v k).1 := by
  rcases k with ⟨kh, kd, kl, krt, ⟨r, se, hs, ph⟩⟩
  cases v <;> cases kh <;> cases r <;> cases se <;> cases hs <;> cases ph <;>
    simp_all [WInv, wInvB, keyDev, workerStart, WPhase.isSleeping]

theorem wInv_keyTimer (cfg : Cfg) (now : Nat) (d : Dir) (k : KeyState)
    (h : WInv k) : WInv (keyTimer cfg now d k).1 := by
  rcases k with ⟨kh, kd, kl, krt, ⟨r, se, hs, ph⟩⟩
  cases krt <;> cases kh <;> cases r <;> cases se <;> cases hs <;> cases ph <;>
    simp_all [WInv, wInvB, keyTimer, workerStop, WPhase.isSleeping] <;>
    (try split_ifs) <;> simp_all

theorem wInv_keyWake (cfg : Cfg) (now : Nat) (d : Dir) (k : KeyState)
    (h : WInv k) : WInv (keyWake cfg now d k).1 := by
  rcases k with ⟨kh, kd, kl, krt, ⟨r, se, hs, ph⟩⟩
  cases kh <;> cases r <;> cases se <;> cases hs <;> cases ph <;>
    simp_all [WInv, wInvB, keyWake, workerWake, WPhase.isSleeping] <;>
    (try split_ifs) <;> simp_all

theorem invSt_step (cfg : Cfg) (o : Occ) (s : St) (h : InvSt s) : InvSt (step cfg o s).1 := by
  cases o with
  | dev code v t =>
    simp only [step]
    split_ifs
    · exact ⟨wInv_keyDev cfg t .up v s.up h.1, h.2⟩
    · exact ⟨h.1, wInv_keyDev cfg t .down v s.down h.2⟩
    · exact h
  | timerFire d2 t =>
    cases d2
    · exact ⟨wInv_keyTimer cfg t .up s.up h.1, h.2⟩
    · exact ⟨h.1, wInv_keyTimer cfg t .down s.down h.2⟩
  | wake d2 t =>
    cases d2
    · exact ⟨wInv_keyWake cfg t .up s.up h.1, h.2⟩
    · exact ⟨h.1, wInv_keyWake cfg t .down s.down h.2⟩

/-- Every state reachable from the initial trackers keeps the worker shape
assumed by `claim_C5`: per key, a running worker has its stop event clear,
the worker runs exactly while the key is held (so at most one live worker
per tracker), and a running worker that has not posted `HoldStart` is still
inside its initial timed wait. -/
theorem invSt_run (cfg : Cfg) (os : List Occ) : InvSt (run cfg os St.init).1 := by
  have aux : ∀ (l : List Occ) (s : St), InvSt s → InvSt (run cfg l s).1 := by
    intro l
    induction l with
    | nil => intro s hs; exact hs
    | cons o rest ih => intro s hs; exact ih (step cfg o s).1 (invSt_step cfg o s hs)
  exact aux os St.init ⟨rfl, rfl⟩

end FRV
